import Mathlib

/-!
Verification of the mock RPC server in `src/server.py` of
satsuma-xyz/node-gateway.

The server's only non-boilerplate logic is `CustomHandler.do_POST`
(lines 21-56): it JSON-decodes the request body, reads the `method`
field, derives a simulated HTTP status code and delay from the method
name, sleeps, prints a diagnostic line and sends a response.

Modelling choices:
- Python strings are modelled as `List Char` (`PyStr`).
- Python `int(s)` for a base-10 string argument is modelled by `pyInt`:
  it strips surrounding Unicode whitespace, accepts an optional sign and
  Unicode decimal digits (category Nd, the digits CPython's
  `Py_UNICODE_TODECIMAL` converts, tabulated in `uniDigitStarts`) with
  single underscores allowed between digits.
- Python floats are modelled as exact rationals (`ℚ`); `c / 1000` is
  exact rational division and `0.25` is `1/4`.  Binary floating-point
  rounding is out of scope.
- The effects of the handler (sleeps, status line, header, stdout
  diagnostic line, body write) are recorded as an explicit `Effect`
  trace.  `json.loads(post_data)["method"]` happens (line 27) before
  any effect, so a decode failure or missing key yields an empty trace
  together with an `Except.error`.
-/

namespace NodeGateway

/-- Python strings, modelled as lists of Unicode characters. -/
abbrev PyStr := List Char

/-- Characters stripped by Python `int()` around the digits: the
characters for which CPython's `Py_UNICODE_ISSPACE` holds. -/
def isPySpace (ch : Char) : Bool :=
  let n := ch.toNat
  (9 ≤ n && n ≤ 13) || (28 ≤ n && n ≤ 31) || n = 32 || n = 133 ||
    n = 160 || n = 5760 || (8192 ≤ n && n ≤ 8202) || n = 8232 ||
    n = 8233 || n = 8239 || n = 8287 || n = 12288

/-- ASCII decimal digit test. -/
def isDigitCh (ch : Char) : Bool :=
  48 ≤ ch.toNat && ch.toNat ≤ 57

/-- Numeric value of an ASCII decimal digit. -/
def digitVal (ch : Char) : Nat := ch.toNat - 48

/-- Start codepoints of the Unicode decimal-digit (category Nd)
blocks, as in CPython 3.11's Unicode database: each block is an
aligned run of ten codepoints whose decimal values are 0 through 9,
and these are exactly the digits `int()` accepts. -/
def uniDigitStarts : List Nat :=
  [48, 1632, 1776, 1984, 2406, 2534, 2662, 2790, 2918, 3046, 3174,
   3302, 3430, 3558, 3664, 3792, 3872, 4160, 4240, 6112, 6160, 6470,
   6608, 6784, 6800, 6992, 7088, 7232, 7248, 42528, 43216, 43264,
   43472, 43504, 43600, 44016, 65296, 66720, 68912, 69734, 69872,
   69942, 70096, 70384, 70736, 70864, 71248, 71360, 71472, 71904,
   72016, 72784, 73040, 73120, 92768, 92864, 93008, 120782, 120792,
   120802, 120812, 120822, 123200, 123632, 125264, 130032]

/-- The start of the decimal-digit block a codepoint lies in, if any. -/
def uniDigitBase (n : Nat) : Option Nat :=
  uniDigitStarts.find? (fun s => decide (s ≤ n) && decide (n < s + 10))

/-- Digit accepted by Python `int()`: any Unicode decimal digit
(category Nd), the test of CPython's `Py_UNICODE_TODECIMAL`. -/
def isPyDigit (ch : Char) : Bool :=
  (uniDigitBase ch.toNat).isSome

/-- Decimal value of a Unicode decimal digit: its offset inside its
block. -/
def pyDigitVal (ch : Char) : Nat :=
  ch.toNat - (uniDigitBase ch.toNat).getD 0

/-- Digit run accepted by Python `int()` after the first digit:
further digits, with single underscores allowed only between digits.
`acc` is the value of the digits consumed so far. -/
def pyDigitsAux (acc : Nat) : List Char → Option Nat
  | [] => some acc
  | c :: rest =>
    if isPyDigit c then pyDigitsAux (acc * 10 + pyDigitVal c) rest
    else if c = '_' then
      match rest with
      | [] => none
      | d :: rest2 =>
        if isPyDigit d then pyDigitsAux (acc * 10 + pyDigitVal d) rest2
        else none
    else none

/-- Unsigned digit part accepted by Python `int()`: nonempty, starts
with a digit, single underscores only between digits. -/
def pyDigits : List Char → Option Nat
  | [] => none
  | c :: rest => if isPyDigit c then pyDigitsAux (pyDigitVal c) rest else none

/-- Optionally signed digit part accepted by Python `int()` (after
whitespace stripping).  A sign must be immediately followed by a digit. -/
def pySigned (s : List Char) : Option Int :=
  match s with
  | [] => none
  | c :: rest =>
    if c = '+' then
      match pyDigits rest with
      | some k => some ((k : Int))
      | none => none
    else if c = '-' then
      match pyDigits rest with
      | some k => some (-(k : Int))
      | none => none
    else
      match pyDigits (c :: rest) with
      | some k => some ((k : Int))
      | none => none

/-- Strip leading and trailing whitespace, as Python `int()` does. -/
def pyStrip (s : PyStr) : PyStr :=
  ((s.dropWhile isPySpace).reverse.dropWhile isPySpace).reverse

/-- Model of Python `int(s)` on a string argument, base 10:
`some n` when `int` succeeds with value `n`, `none` when it raises
`ValueError` (the case caught on line 33 of `server.py`). -/
def pyInt (s : PyStr) : Option Int :=
  pySigned (pyStrip s)

/-- The claim-side notion of an optionally signed base-10 integer
string: an optional sign followed directly by one or more ASCII decimal
digits, nothing else (no underscores, no surrounding whitespace).
First, the digit run. -/
def decDigitsAux (acc : Nat) : List Char → Option Nat
  | [] => some acc
  | c :: rest =>
    if isDigitCh c then decDigitsAux (acc * 10 + digitVal c) rest
    else none

/-- Nonempty run of ASCII decimal digits, and its value. -/
def decDigits : List Char → Option Nat
  | [] => none
  | c :: rest => if isDigitCh c then decDigitsAux (digitVal c) rest else none

/-- Modelled from the claims' words: a string that is an optional sign
followed by decimal digits, and the integer it denotes.  This is the
strict spec-side parse, to be compared with the source-side `pyInt`. -/
def signedDecimal (s : List Char) : Option Int :=
  match s with
  | [] => none
  | c :: rest =>
    if c = '+' then
      match decDigits rest with
      | some k => some ((k : Int))
      | none => none
    else if c = '-' then
      match decDigits rest with
      | some k => some (-(k : Int))
      | none => none
    else
      match decDigits (c :: rest) with
      | some k => some ((k : Int))
      | none => none

/-- `METHOD_PREFIX = "eth_"` from line 9 of `server.py`. -/
def METHOD_TAG : PyStr := ("eth_").toList

/-- The literal compared against on line 43 of `server.py`. -/
def slowMethodName : PyStr := ("eth_slowMethod").toList

/-- Lines 28-34 of `server.py`: the status-or-delay integer `c`.
If `m` lacks the prefix, `ValueError` is raised (line 30) and caught;
if `int(suffix)` raises `ValueError`, it is caught; either way
`c = 200`. -/
def deriveC (m : PyStr) : Int :=
  if METHOD_TAG.isPrefixOf m then
    match pyInt (m.drop METHOD_TAG.length) with
    | some n => n
    | none => 200
  else 200

/-- Result of lines 28-44 of `server.py`: the final status code `c`,
the `secs` variable (later embedded in the response body), and the
sequence of durations passed to `time.sleep`. -/
structure SimResult where
  statusCode : Int
  bodySecs : ℚ
  sleeps : List ℚ
  deriving DecidableEq, Repr

/-- Lines 28-44 of `server.py`: derive `c` and `secs` from the method
name, then the sleeps: `time.sleep(secs)` (line 41) and, when the
method is exactly `eth_slowMethod`, `time.sleep(0.25)` (line 44).
Note the extra quarter second is slept but never added to `secs`. -/
def simulate (m : PyStr) : SimResult :=
  let c := deriveC m
  let secs : ℚ := if 1000 ≤ c then (c : ℚ) / 1000 else 0
  let code : Int := if 1000 ≤ c then 200 else c
  { statusCode := code
    bodySecs := secs
    sleeps := [secs] ++ (if m = slowMethodName then [(1 : ℚ)/4] else []) }

/-- Observable effects of `do_POST`, in program order. -/
inductive Effect
  | sleep (secs : ℚ)
  | sendStatus (code : Int)
  | sendHeader (k v : String)
  | logLine (line : PyStr)
  | writeBody (port : Nat) (m : PyStr) (secs : ℚ)
  deriving DecidableEq, Repr

/-- The decoded POST body, as seen by line 27 of `server.py`:
`json.loads` may fail (`invalidJson`), the decoded object may lack the
`"method"` key (`missingMethod`), or it carries a string method name.
The stdlib JSON decoder itself is an external collaborator; only the
three outcomes it can produce for the handler are modelled. -/
inductive PostBody
  | invalidJson (raw : PyStr)
  | missingMethod (raw : PyStr)
  | withMethod (raw : PyStr) (m : PyStr)
  deriving DecidableEq, Repr

/-- The unhandled Python exceptions line 27 can raise:
`json.JSONDecodeError` from `json.loads`, `KeyError` from the key
lookup.  Neither is caught anywhere in the handler. -/
inductive Fault
  | jsonDecodeError
  | keyError
  deriving DecidableEq, Repr

/-- Lines 27-56 of `server.py`: the full POST handler, as the list of
effects it performs and whether it completes.  Line 27 runs before any
effect, so a decode failure or a missing key yields the empty trace.
On success the trace is: the sleeps of lines 41-44, `send_response(c)`
(line 47), the content-type header (line 48), the stdout diagnostic
line (line 52), and the body write of lines 55-56, which embeds the
configured port, the method name and the `secs` variable. -/
def do_POST (port : Nat) : PostBody → List Effect × Except Fault Unit
  | .invalidJson _ => ([], .error .jsonDecodeError)
  | .missingMethod _ => ([], .error .keyError)
  | .withMethod raw m =>
    let r := simulate m
    (r.sleeps.map Effect.sleep ++
      [Effect.sendStatus r.statusCode,
       Effect.sendHeader ("Content-type") ("text/html"),
       Effect.logLine (("Received POST data: ").toList ++ raw),
       Effect.writeBody port m r.bodySecs],
     .ok ())

/-- The stdout diagnostic lines of a trace. -/
def logsOf (es : List Effect) : List PyStr :=
  es.filterMap fun e =>
    match e with
    | .logLine l => some l
    | _ => none

/-- The body writes of a trace: (port, method, secs) triples. -/
def writesOf (es : List Effect) : List (Nat × PyStr × ℚ) :=
  es.filterMap fun e =>
    match e with
    | .writeBody p m s => some (p, m, s)
    | _ => none

/-- The total time slept along a trace, in seconds. -/
def totalSlept (es : List Effect) : ℚ :=
  (es.filterMap fun e =>
    match e with
    | .sleep q => some q
    | _ => none).sum


/-- A list is a `isPrefixOf`-prefix of itself followed by anything. -/
theorem isPrefixOf_append_self (p s : List Char) :
    p.isPrefixOf (p ++ s) = true := by
  induction p with
  | nil => simp [List.isPrefixOf]
  | cons a as ih => simp [List.isPrefixOf, ih]

/-- Dropping the length of a leading chunk returns the rest. -/
theorem drop_len_append (p s : List Char) : (p ++ s).drop p.length = s := by
  induction p with
  | nil => rfl
  | cons a as ih => simp

/-- `dropWhile` is the identity when no element satisfies the test. -/
theorem dropWhile_eq_self_of_not (p : Char → Bool) (l : List Char)
    (h : ∀ c ∈ l, p c = false) : l.dropWhile p = l := by
  cases l with
  | nil => rfl
  | cons a as => simp [List.dropWhile, h a (List.mem_cons_self a as)]

/-- `pyStrip` is the identity on strings without whitespace. -/
theorem pyStrip_eq_self (s : PyStr) (h : ∀ c ∈ s, isPySpace c = false) :
    pyStrip s = s := by
  rw [pyStrip, dropWhile_eq_self_of_not _ _ h,
    dropWhile_eq_self_of_not _ _ (fun c hc => h c (List.mem_reverse.mp hc)),
    List.reverse_reverse]

/-- Every character of a successful strict digit run is a digit. -/
theorem decDigitsAux_digits : ∀ (l : List Char) (acc n : Nat),
    decDigitsAux acc l = some n → ∀ c ∈ l, isDigitCh c = true := by
  intro l
  induction l with
  | nil => intro acc n _ c hc; exact absurd hc (List.not_mem_nil c)
  | cons a as ih =>
    intro acc n h c hc
    simp only [decDigitsAux] at h
    by_cases ha : isDigitCh a
    · rw [if_pos ha] at h
      rcases List.mem_cons.mp hc with rfl | hmem
      · exact ha
      · exact ih _ _ h c hmem
    · rw [if_neg ha] at h
      simp at h

/-- An ASCII codepoint between 48 and 57 lies in the first digit
block of the table, the ASCII one. -/
theorem uniDigitBase_ascii (n : Nat) (h1 : 48 ≤ n) (h2 : n ≤ 57) :
    uniDigitBase n = some 48 := by
  rw [uniDigitBase, uniDigitStarts, List.find?]
  have : (decide (48 ≤ n) && decide (n < 48 + 10)) = true := by
    simp
    omega
  rw [this]

/-- An ASCII decimal digit is a Python decimal digit. -/
theorem isPyDigit_of_ascii (c : Char) (h : isDigitCh c = true) :
    isPyDigit c = true := by
  simp only [isDigitCh, Bool.and_eq_true, decide_eq_true_eq] at h
  simp [isPyDigit, uniDigitBase_ascii c.toNat h.1 h.2]

/-- On ASCII decimal digits the Python digit value is the ASCII one. -/
theorem pyDigitVal_of_ascii (c : Char) (h : isDigitCh c = true) :
    pyDigitVal c = digitVal c := by
  simp only [isDigitCh, Bool.and_eq_true, decide_eq_true_eq] at h
  simp [pyDigitVal, digitVal, uniDigitBase_ascii c.toNat h.1 h.2]

/-- A strict digit run is accepted, with the same value, by the
Python-`int` digit run. -/
theorem decDigitsAux_pyDigitsAux : ∀ (l : List Char) (acc n : Nat),
    decDigitsAux acc l = some n → pyDigitsAux acc l = some n := by
  intro l
  induction l with
  | nil => intro acc n h; exact h
  | cons a as ih =>
    intro acc n h
    simp only [decDigitsAux] at h
    by_cases ha : isDigitCh a
    · rw [if_pos ha] at h
      rw [pyDigitsAux.eq_def]
      simp only [isPyDigit_of_ascii a ha, if_pos, pyDigitVal_of_ascii a ha]
      exact ih _ _ h
    · rw [if_neg ha] at h
      simp at h

/-- Every character of a successful strict digit string is a digit. -/
theorem decDigits_digits (l : List Char) (n : Nat)
    (h : decDigits l = some n) : ∀ c ∈ l, isDigitCh c = true := by
  cases l with
  | nil => simp [decDigits] at h
  | cons a as =>
    simp only [decDigits] at h
    by_cases ha : isDigitCh a
    · rw [if_pos ha] at h
      intro c hc
      rcases List.mem_cons.mp hc with rfl | hmem
      · exact ha
      · exact decDigitsAux_digits as _ _ h c hmem
    · rw [if_neg ha] at h
      simp at h

/-- A strict digit string is accepted, with the same value, by the
Python-`int` digit string parse. -/
theorem decDigits_pyDigits (l : List Char) (n : Nat)
    (h : decDigits l = some n) : pyDigits l = some n := by
  cases l with
  | nil => simp [decDigits] at h
  | cons a as =>
    simp only [decDigits] at h
    simp only [pyDigits]
    by_cases ha : isDigitCh a
    · rw [if_pos ha] at h
      rw [if_pos (isPyDigit_of_ascii a ha), pyDigitVal_of_ascii a ha]
      exact decDigitsAux_pyDigitsAux as _ _ h
    · rw [if_neg ha] at h
      simp at h

/-- An ASCII decimal digit is not whitespace. -/
theorem isDigitCh_not_space (c : Char) (h : isDigitCh c = true) :
    isPySpace c = false := by
  simp only [isDigitCh, Bool.and_eq_true, decide_eq_true_eq] at h
  simp only [isPySpace, Bool.or_eq_false_iff, Bool.and_eq_false_iff,
    decide_eq_false_iff_not]
  omega

/-- No character of a strict signed decimal string is whitespace. -/
theorem signedDecimal_no_space (s : List Char) (n : Int)
    (h : signedDecimal s = some n) : ∀ c ∈ s, isPySpace c = false := by
  cases s with
  | nil => simp [signedDecimal] at h
  | cons a rest =>
    simp only [signedDecimal] at h
    intro c hc
    by_cases hp : a = '+'
    · rw [if_pos hp] at h
      cases hd : decDigits rest with
      | none => rw [hd] at h; simp at h
      | some k =>
        rcases List.mem_cons.mp hc with rfl | hmem
        · rw [hp]; rfl
        · exact isDigitCh_not_space c (decDigits_digits rest k hd c hmem)
    · rw [if_neg hp] at h
      by_cases hm : a = '-'
      · rw [if_pos hm] at h
        cases hd : decDigits rest with
        | none => rw [hd] at h; simp at h
        | some k =>
          rcases List.mem_cons.mp hc with rfl | hmem
          · rw [hm]; rfl
          · exact isDigitCh_not_space c (decDigits_digits rest k hd c hmem)
      · rw [if_neg hm] at h
        cases hd : decDigits (a :: rest) with
        | none => rw [hd] at h; simp at h
        | some k =>
          exact isDigitCh_not_space c (decDigits_digits (a :: rest) k hd c hc)

/-- A strict signed decimal string is accepted, with the same value,
by the signed Python-`int` parse. -/
theorem signedDecimal_pySigned (s : List Char) (n : Int)
    (h : signedDecimal s = some n) : pySigned s = some n := by
  cases s with
  | nil => simp [signedDecimal] at h
  | cons a rest =>
    simp only [signedDecimal] at h
    simp only [pySigned]
    by_cases hp : a = '+'
    · rw [if_pos hp] at h ⊢
      cases hd : decDigits rest with
      | none => rw [hd] at h; simp at h
      | some k =>
        rw [hd] at h
        rw [decDigits_pyDigits rest k hd]
        exact h
    · rw [if_neg hp] at h ⊢
      by_cases hm : a = '-'
      · rw [if_pos hm] at h ⊢
        cases hd : decDigits rest with
        | none => rw [hd] at h; simp at h
        | some k =>
          rw [hd] at h
          rw [decDigits_pyDigits rest k hd]
          exact h
      · rw [if_neg hm] at h ⊢
        cases hd : decDigits (a :: rest) with
        | none => rw [hd] at h; simp at h
        | some k =>
          rw [hd] at h
          rw [decDigits_pyDigits (a :: rest) k hd]
          exact h

/-- A strict signed decimal string is accepted, with the same value,
by the full model of Python `int`. -/
theorem signedDecimal_pyInt (s : List Char) (n : Int)
    (h : signedDecimal s = some n) : pyInt s = some n := by
  rw [pyInt, pyStrip_eq_self s (signedDecimal_no_space s n h)]
  exact signedDecimal_pySigned s n h

/-- Lines 29-34: when the suffix after `eth_` parses, `c` is its value. -/
theorem deriveC_tag_append (s : PyStr) (n : Int) (h : pyInt s = some n) :
    deriveC (METHOD_TAG ++ s) = n := by
  rw [deriveC, if_pos (isPrefixOf_append_self METHOD_TAG s),
    drop_len_append, h]

/-- Lines 29-34: a method without the `eth_` prefix yields `c = 200`. -/
theorem deriveC_no_tag (m : PyStr) (h : METHOD_TAG.isPrefixOf m = false) :
    deriveC m = 200 := by
  rw [deriveC, if_neg (by simp [h])]

/-- A method whose suffix is a strict signed decimal string is not the
literal `eth_slowMethod`. -/
theorem tag_append_ne_slow (s : PyStr) (n : Int)
    (h : signedDecimal s = some n) : METHOD_TAG ++ s ≠ slowMethodName := by
  intro he
  have hs : s = ("slowMethod").toList :=
    List.append_cancel_left
      (he.trans (by decide : slowMethodName = METHOD_TAG ++ ("slowMethod").toList))
  rw [hs] at h
  rw [(by decide : signedDecimal (("slowMethod").toList) = none)] at h
  simp at h

/-- C5: for every method name of the form `eth_<N>` where `N` is an
optionally signed base-10 integer with `N >= 1000`, the derived status
code is 200 and the total slept delay is `N/1000` seconds. -/
theorem eth_large_numeric_delay (s : PyStr) (n : Int)
    (hs : signedDecimal s = some n) (hn : 1000 ≤ n) :
    (simulate (METHOD_TAG ++ s)).statusCode = 200 ∧
    (simulate (METHOD_TAG ++ s)).sleeps.sum = (n : ℚ) / 1000 := by
  have hc : deriveC (METHOD_TAG ++ s) = n :=
    deriveC_tag_append s n (signedDecimal_pyInt s n hs)
  have hm : METHOD_TAG ++ s ≠ slowMethodName := tag_append_ne_slow s n hs
  constructor
  · simp only [simulate, hc, if_pos hn]
  · simp only [simulate, hc, if_pos hn, if_neg hm]
    simp

/-- Witness for C5 at the spec's own example `eth_1500`. -/
theorem eth_large_numeric_delay_witness :
    signedDecimal (("1500").toList) = some 1500 ∧
    (1000 : Int) ≤ 1500 ∧
    (simulate (METHOD_TAG ++ ("1500").toList)).statusCode = 200 ∧
    (simulate (METHOD_TAG ++ ("1500").toList)).sleeps.sum =
      ((1500 : Int) : ℚ) / 1000 :=
  ⟨by decide, by decide,
   (eth_large_numeric_delay (("1500").toList) 1500 (by decide) (by decide)).1,
   (eth_large_numeric_delay (("1500").toList) 1500 (by decide) (by decide)).2⟩

/-- C6: for every method name of the form `eth_<N>` where `N` is an
optionally signed base-10 integer with `N < 1000` (zero and negative
values included), the derived status code is `N` itself, passed
through literally, and the total slept delay is 0. -/
theorem eth_small_numeric_status (s : PyStr) (n : Int)
    (hs : signedDecimal s = some n) (hn : n < 1000) :
    (simulate (METHOD_TAG ++ s)).statusCode = n ∧
    (simulate (METHOD_TAG ++ s)).sleeps.sum = 0 := by
  have hc : deriveC (METHOD_TAG ++ s) = n :=
    deriveC_tag_append s n (signedDecimal_pyInt s n hs)
  have hm : METHOD_TAG ++ s ≠ slowMethodName := tag_append_ne_slow s n hs
  have hlt : ¬ (1000 ≤ deriveC (METHOD_TAG ++ s)) := by rw [hc]; exact not_le.mpr hn
  constructor
  · simp only [simulate, hc, if_neg (not_le.mpr hn)]
  · simp only [simulate, if_neg hlt, if_neg hm]
    simp

/-- Witness for C6 at the spec's example `eth_404` and at a negative
suffix `eth_-5`. -/
theorem eth_small_numeric_status_witness :
    (signedDecimal (("404").toList) = some 404 ∧ (404 : Int) < 1000 ∧
     (simulate (METHOD_TAG ++ ("404").toList)).statusCode = 404 ∧
     (simulate (METHOD_TAG ++ ("404").toList)).sleeps.sum = 0) ∧
    (signedDecimal (("-5").toList) = some (-5) ∧ (-5 : Int) < 1000 ∧
     (simulate (METHOD_TAG ++ ("-5").toList)).statusCode = -5 ∧
     (simulate (METHOD_TAG ++ ("-5").toList)).sleeps.sum = 0) :=
  ⟨⟨by decide, by decide,
    (eth_small_numeric_status (("404").toList) 404 (by decide) (by decide)).1,
    (eth_small_numeric_status (("404").toList) 404 (by decide) (by decide)).2⟩,
   ⟨by decide, by decide,
    (eth_small_numeric_status (("-5").toList) (-5) (by decide) (by decide)).1,
    (eth_small_numeric_status (("-5").toList) (-5) (by decide) (by decide)).2⟩⟩

/-- C7: for the method name exactly `eth_slowMethod`, the status code
is 200, the base delay from steps 1-3 (the `secs` variable) is 0 since
the suffix `slowMethod` is non-numeric, and the total slept delay is
the fixed quarter-second override, 0.25 seconds. -/
theorem eth_slowMethod_outcome :
    (simulate slowMethodName).statusCode = 200 ∧
    (simulate slowMethodName).bodySecs = 0 ∧
    (simulate slowMethodName).sleeps.sum = 1/4 := by
  have hc : deriveC slowMethodName = 200 := by decide
  refine ⟨by decide, by decide, ?_⟩
  simp only [simulate, hc, if_pos rfl]
  norm_num

/-- C8: every method name that does not start with `eth_` yields
status code 200 and a total slept delay of 0. -/
theorem non_eth_default (m : PyStr)
    (h : METHOD_TAG.isPrefixOf m = false) :
    (simulate m).statusCode = 200 ∧ (simulate m).sleeps.sum = 0 := by
  have hc : deriveC m = 200 := deriveC_no_tag m h
  have hm : m ≠ slowMethodName := by
    intro he
    rw [he] at h
    exact absurd h (by decide)
  constructor
  · simp only [simulate, hc]
    norm_num
  · simp only [simulate, hc, if_neg hm]
    norm_num

/-- Witness for C8 at the spec's example `foobar`. -/
theorem non_eth_default_witness :
    METHOD_TAG.isPrefixOf (("foobar").toList) = false ∧
    (simulate (("foobar").toList)).statusCode = 200 ∧
    (simulate (("foobar").toList)).sleeps.sum = 0 :=
  ⟨by decide,
   (non_eth_default (("foobar").toList) (by decide)).1,
   (non_eth_default (("foobar").toList) (by decide)).2⟩

/-- C9: for every method name, a strictly positive total slept delay
implies status code 200, and the total slept delay is never negative
(negative integer suffixes included, since they set the status code,
not the delay). -/
theorem delay_status_invariant (m : PyStr) :
    (0 < (simulate m).sleeps.sum → (simulate m).statusCode = 200) ∧
    0 ≤ (simulate m).sleeps.sum := by
  by_cases hm : m = slowMethodName
  · subst hm
    have hc : deriveC slowMethodName = 200 := by decide
    refine ⟨fun _ => by decide, ?_⟩
    simp only [simulate, hc, if_pos rfl]
    norm_num
  · by_cases hge : 1000 ≤ deriveC m
    · have hcast : (0 : ℚ) ≤ (deriveC m : ℚ) := by
        exact_mod_cast le_trans (by norm_num : (0 : Int) ≤ 1000) hge
      constructor
      · intro _
        simp only [simulate, if_pos hge]
      · simp only [simulate, if_pos hge, if_neg hm]
        simp
        positivity
    · constructor
      · intro hpos
        exfalso
        simp only [simulate, if_neg hge, if_neg hm] at hpos
        simp at hpos
      · simp only [simulate, if_neg hge, if_neg hm]
        simp

/-- Helper for the C9 witness: `eth_2000` sleeps a positive total. -/
theorem eth2000_sum_pos :
    0 < (simulate (("eth_2000").toList)).sleeps.sum := by
  have hc : deriveC (("eth_2000").toList) = 2000 := by decide
  have hm : ¬ (("eth_2000").toList = slowMethodName) := by decide
  simp only [simulate, hc, if_neg hm]
  norm_num

/-- Witness for C9 at `eth_2000`, whose total slept delay is positive. -/
theorem delay_status_invariant_witness :
    (simulate (("eth_2000").toList)).statusCode = 200 ∧
    0 ≤ (simulate (("eth_2000").toList)).sleeps.sum :=
  ⟨(delay_status_invariant (("eth_2000").toList)).1 eth2000_sum_pos,
   (delay_status_invariant (("eth_2000").toList)).2⟩

/-- C10: for the method name exactly `eth_` the prefix matches, the
empty suffix fails the integer parse, and the outcome is status code
200 with a total slept delay of 0. -/
theorem eth_empty_suffix_default :
    METHOD_TAG.isPrefixOf METHOD_TAG = true ∧
    pyInt (METHOD_TAG.drop METHOD_TAG.length) = none ∧
    (simulate METHOD_TAG).statusCode = 200 ∧
    (simulate METHOD_TAG).sleeps.sum = 0 := by
  refine ⟨by decide, by decide, by decide, ?_⟩
  have hc : deriveC METHOD_TAG = 200 := by decide
  have hm : ¬ (METHOD_TAG = slowMethodName) := by decide
  simp only [simulate, hc, if_neg hm]
  norm_num

/-- Helper: extracting the sleep durations back out of a list of sleep
effects is the identity. -/
theorem filterMap_sleep_map (l : List ℚ) :
    List.filterMap (fun e =>
      match e with
      | Effect.sleep q => some q
      | _ => none) (l.map Effect.sleep) = l := by
  induction l with
  | nil => rfl
  | cons a as ih => simp [List.filterMap_cons, ih]

/-- Helper: the total slept time of a successful POST trace is the sum
of the sleeps chosen by the derivation. -/
theorem totalSlept_post (port : Nat) (raw m : PyStr) :
    totalSlept (do_POST port (.withMethod raw m)).1 =
      (simulate m).sleeps.sum := by
  simp only [do_POST, totalSlept, List.filterMap_append, filterMap_sleep_map,
    List.filterMap_cons]
  simp

/-- C4: for a POST whose body is not valid JSON or whose decoded object
lacks the `method` key, line 27 raises before any effect: the handler
terminates with an uncaught fault and an empty effect trace, so no
status line, header, sleep, diagnostic line or body write happens. -/
theorem malformed_body_aborts (port : Nat) (raw : PyStr) :
    do_POST port (.invalidJson raw) = ([], .error .jsonDecodeError) ∧
    do_POST port (.missingMethod raw) = ([], .error .keyError) :=
  ⟨rfl, rfl⟩

/-- C2 (amended): every POST whose body is valid JSON with a string
`method` field emits exactly one diagnostic line
`Received POST data: <raw body>`; a POST with invalid JSON or without
the `method` field emits none, because line 27 raises before the
`print` on line 52 runs. -/
theorem post_log_once_valid (port : Nat) (raw m : PyStr) :
    logsOf (do_POST port (.withMethod raw m)).1 =
      [("Received POST data: ").toList ++ raw] ∧
    logsOf (do_POST port (.invalidJson raw)).1 = [] ∧
    logsOf (do_POST port (.missingMethod raw)).1 = [] := by
  refine ⟨?_, rfl, rfl⟩
  simp [do_POST, logsOf, List.filterMap_append, List.filterMap_map,
    Function.comp]

/-- C2 counterexample: a POST whose body is not valid JSON produces an
empty trace, hence zero diagnostic lines, not one. -/
theorem invalid_json_no_log_cex :
    do_POST 4444 (PostBody.invalidJson (("not json").toList)) =
      ([], .error .jsonDecodeError) ∧
    logsOf (do_POST 4444 (PostBody.invalidJson (("not json").toList))).1 =
      [] :=
  ⟨rfl, rfl⟩

/-- C1 (amended): for every POST whose body is valid JSON with a string
`method` field, the response body embeds the port, the method name and
the base delay `secs` computed in steps 1-3 -- which equals the total
slept delay minus the fixed 0.25-second `eth_slowMethod` override, not
the total itself. -/
theorem post_writes_base_secs (port : Nat) (raw m : PyStr) :
    ∃ s : ℚ,
      writesOf (do_POST port (.withMethod raw m)).1 = [(port, m, s)] ∧
      totalSlept (do_POST port (.withMethod raw m)).1 =
        s + (if m = slowMethodName then (1 : ℚ)/4 else 0) := by
  refine ⟨(simulate m).bodySecs, ?_, ?_⟩
  · simp [do_POST, writesOf, List.filterMap_append, List.filterMap_map,
      Function.comp]
  · rw [totalSlept_post]
    by_cases hm : m = slowMethodName
    · simp only [simulate, if_pos hm]
      simp
    · simp only [simulate, if_neg hm]
      simp

/-- C1 counterexample: for the method `eth_slowMethod` the body write
embeds `secs = 0` while the total slept delay is 0.25 seconds, so the
body does not embed the total delay actually slept. -/
theorem slowMethod_body_secs_cex :
    writesOf (do_POST 4444
        (PostBody.withMethod (("body").toList) slowMethodName)).1 =
      [(4444, slowMethodName, 0)] ∧
    totalSlept (do_POST 4444
        (PostBody.withMethod (("body").toList) slowMethodName)).1 = 1/4 ∧
    (0 : ℚ) ≠ 1/4 := by
  have hc : deriveC slowMethodName = 200 := by decide
  refine ⟨?_, ?_, by norm_num⟩
  · simp [do_POST, writesOf, List.filterMap_append, List.filterMap_map,
      Function.comp, simulate, hc]
  · rw [totalSlept_post]
    simp only [simulate, hc, if_pos rfl]
    norm_num

end NodeGateway
